import Mathlib

/-!
Shallow embedding of the moonlapse wire protocol codec
(src/shared/packets.hpp) and of the server-side session logic
(src/server/main.cpp), together with proofs of the specified properties.

Bytes are modelled as `Fin 256`; machine integers as `Nat` / `Int` with
explicit reduction modulo `2 ^ w` where the C++ code truncates.
-/

namespace Moonlapse

/-- A single octet, as carried by `std::byte` buffers. -/
abbrev Byte := Fin 256

/-- Build a byte from a natural number, reducing modulo 256 exactly as the
C++ casts to `std::uint8_t` / `std::byte` do. -/
def byte (n : Nat) : Byte := ⟨n % 256, Nat.mod_lt n (by norm_num)⟩

/-- Model of `Moonlapse::Protocol::protocolVersion`. -/
def protocolVersion : Nat := 1

/-- Model of `Moonlapse::Protocol::packetHeaderSize` = 2 + 2 + 4. -/
def packetHeaderSize : Nat := 8

/-- Model of `enum class PacketType : uint8_t { Movement = 1, StateSnapshot = 2, Chat = 3 }`. -/
inductive PacketType where
  | Movement
  | StateSnapshot
  | Chat
deriving DecidableEq

/-- The numeric wire tag of a packet type. -/
def PacketType.code : PacketType → Nat
  | .Movement => 1
  | .StateSnapshot => 2
  | .Chat => 3

/-- Model of `enum class Direction : uint8_t { Up = 0, Down = 1, Left = 2, Right = 3 }`. -/
inductive Direction where
  | Up
  | Down
  | Left
  | Right
deriving DecidableEq

/-- The numeric wire code of a direction. -/
def Direction.code : Direction → Nat
  | .Up => 0
  | .Down => 1
  | .Left => 2
  | .Right => 3

/-- Model of `struct Position { int32_t x; int32_t y; }`. -/
structure Position where
  x : Int
  y : Int
deriving DecidableEq

/-- Model of `struct PacketHeader`. -/
structure PacketHeader where
  version : Nat
  type : PacketType
  payloadSize : Nat
deriving DecidableEq

/-- Model of `struct MovementPacket { PlayerId player; Direction direction; }`. -/
structure MovementPacket where
  player : Nat
  direction : Direction
deriving DecidableEq

/-- Model of `struct PlayerState { PlayerId player; Position position; }`. -/
structure PlayerState where
  player : Nat
  position : Position
deriving DecidableEq

/-- Model of `struct StateSnapshotPacket { PlayerId focusPlayer; vector<PlayerState> players; }`. -/
structure StateSnapshotPacket where
  focusPlayer : Nat
  players : List PlayerState
deriving DecidableEq

/-- Model of `struct ChatPacket { PlayerId player; string message; }`; the message is
kept as its raw bytes. -/
structure ChatPacket where
  player : Nat
  message : List Byte
deriving DecidableEq

/-- Model of `enum class PacketError`. -/
inductive PacketError where
  | VersionMismatch
  | UnknownType
  | Truncated
  | SizeMismatch
  | InvalidPayload
deriving DecidableEq

/-- Model of `std::variant<MovementPacket, StateSnapshotPacket, ChatPacket>`. -/
inductive PacketVariant where
  | movement (p : MovementPacket)
  | stateSnapshot (p : StateSnapshotPacket)
  | chat (p : ChatPacket)
deriving DecidableEq

/-! ### Byte-order helpers

`writeIntegral` / `PayloadWriter::write` emit the bytes of a value in
big-endian order (`toBigEndian` byte-swaps on little-endian hosts);
`readIntegral` / `PayloadReader::read` reassemble them. -/

/-- The `w` big-endian bytes of `v % 2 ^ (8 * w)`, most significant first. -/
def toBytesBE : Nat → Nat → List Byte
  | 0, _ => []
  | w + 1, v => toBytesBE w (v / 256) ++ [byte v]

/-- Reassemble a big-endian byte string into a natural number. -/
def fromBytesBE (bs : List Byte) : Nat :=
  bs.foldl (fun acc b => acc * 256 + b.val) 0

/-- Two's-complement reading of a 32-bit pattern, as `std::bit_cast` to
`int32_t` performs it. -/
def decodeI32 (n : Nat) : Int :=
  if n < 2 ^ 31 then (n : Int) else (n : Int) - 2 ^ 32

/-- Model of `PayloadWriter::write<uint16_t>`. -/
def writeU16 (v : Nat) : List Byte := toBytesBE 2 v

/-- Model of `PayloadWriter::write<uint32_t>`. -/
def writeU32 (v : Nat) : List Byte := toBytesBE 4 v

/-- Model of `PayloadWriter::write<int32_t>`: the two's-complement pattern of `x`. -/
def writeI32 (x : Int) : List Byte := toBytesBE 4 (x % (2 ^ 32 : Nat)).toNat

/-- The bounds-checked slice `[offset, offset + n)` of a buffer; reading past
the end is the `Truncated` error, as in `PayloadReader::read`. -/
def readBytesAt (payload : List Byte) (offset n : Nat) : Except PacketError (List Byte) :=
  if offset + n ≤ payload.length then Except.ok ((payload.drop offset).take n)
  else Except.error PacketError.Truncated

/-- Model of `PayloadReader::read<T>` for an unsigned `n`-byte integer at `offset`. -/
def readUInt (payload : List Byte) (offset n : Nat) : Except PacketError Nat :=
  match readBytesAt payload offset n with
  | .error e => .error e
  | .ok bs => .ok (fromBytesBE bs)

/-- Model of `PayloadReader::read<uint16_t>` at a given offset. -/
def readU16 (payload : List Byte) (offset : Nat) : Except PacketError Nat :=
  readUInt payload offset 2

/-- Model of `PayloadReader::read<uint32_t>` at a given offset. -/
def readU32 (payload : List Byte) (offset : Nat) : Except PacketError Nat :=
  readUInt payload offset 4

/-- Model of `PayloadReader::readByte` at a given offset. -/
def readByteAt (payload : List Byte) (offset : Nat) : Except PacketError Nat :=
  readUInt payload offset 1

/-- Model of `PayloadReader::read<int32_t>` at a given offset. -/
def readI32 (payload : List Byte) (offset : Nat) : Except PacketError Int :=
  match readBytesAt payload offset 4 with
  | .error e => .error e
  | .ok bs => .ok (decodeI32 (fromBytesBE bs))

/-- Model of `PayloadReader::skip`. -/
def skipAt (payload : List Byte) (offset n : Nat) : Except PacketError Unit :=
  if offset + n ≤ payload.length then Except.ok ()
  else Except.error PacketError.Truncated

/-! ### Header codec -/

/-- Model of `encodeHeader`. -/
def encodeHeader (header : PacketHeader) : List Byte :=
  writeU16 header.version ++ writeU16 header.type.code ++ writeU32 header.payloadSize

/-- The `switch` on `static_cast<PacketType>(typeValue)` in `decodeHeader`:
converting the 16-bit tag to the `uint8_t`-backed scoped enum reduces it
modulo 256 before the comparison with the three named values. -/
def decodePacketTypeCode (code : Nat) : Option PacketType :=
  if code % 256 = 1 then some PacketType.Movement
  else if code % 256 = 2 then some PacketType.StateSnapshot
  else if code % 256 = 3 then some PacketType.Chat
  else none

/-- Model of `decodeHeader`. -/
def decodeHeader (buffer : List Byte) : Except PacketError PacketHeader :=
  if buffer.length < packetHeaderSize then Except.error PacketError.Truncated
  else
    match readU16 buffer 0 with
    | .error e => .error e
    | .ok version =>
      match readU16 buffer 2 with
      | .error e => .error e
      | .ok typeValue =>
        match readU32 buffer 4 with
        | .error e => .error e
        | .ok payloadSize =>
          if version ≠ protocolVersion then Except.error PacketError.VersionMismatch
          else
            match decodePacketTypeCode typeValue with
            | some decodedType =>
                Except.ok { version := version, type := decodedType,
                            payloadSize := payloadSize }
            | none => Except.error PacketError.UnknownType

/-! ### Payload encoders -/

/-- Model of `encodePayload(const MovementPacket&)`: id, direction byte, 3 reserved
zero bytes. -/
def encodeMovementPayload (packet : MovementPacket) : List Byte :=
  writeU32 packet.player ++ [byte packet.direction.code] ++ List.replicate 3 (byte 0)

/-- One snapshot entry: id, x, y. -/
def encodePlayerState (entry : PlayerState) : List Byte :=
  writeU32 entry.player ++ writeI32 entry.position.x ++ writeI32 entry.position.y

/-- Model of `encodePayload(const StateSnapshotPacket&)`: focus id, entry count
(truncated to `uint32_t`), then the entries. -/
def encodeSnapshotPayload (packet : StateSnapshotPacket) : List Byte :=
  writeU32 packet.focusPlayer ++ writeU32 packet.players.length ++
    (packet.players.map encodePlayerState).flatten

/-- Model of `encodePayload(const ChatPacket&)`: id then the raw message bytes. -/
def encodeChatPayload (packet : ChatPacket) : List Byte :=
  writeU32 packet.player ++ packet.message

/-- Shared body of the three `encode` overloads: header (with the payload
length truncated to `uint32_t`) followed by the payload. -/
def encodeWithType (t : PacketType) (payload : List Byte) : List Byte :=
  encodeHeader { version := protocolVersion, type := t,
                 payloadSize := payload.length % 2 ^ 32 } ++ payload

/-- Model of `encode(const MovementPacket&)`. -/
def encodeMovement (packet : MovementPacket) : List Byte :=
  encodeWithType PacketType.Movement (encodeMovementPayload packet)

/-- Model of `encode(const StateSnapshotPacket&)`. -/
def encodeStateSnapshot (packet : StateSnapshotPacket) : List Byte :=
  encodeWithType PacketType.StateSnapshot (encodeSnapshotPayload packet)

/-- Model of `encode(const ChatPacket&)`. -/
def encodeChat (packet : ChatPacket) : List Byte :=
  encodeWithType PacketType.Chat (encodeChatPayload packet)

/-- Overload resolution of `encode` on the typed-message union. -/
def encodeVariant : PacketVariant → List Byte
  | .movement p => encodeMovement p
  | .stateSnapshot p => encodeStateSnapshot p
  | .chat p => encodeChat p

/-! ### Payload decoders -/

/-- Model of `static_cast<Direction>` of a value already checked to be at most 3. -/
def decodeDirection (n : Nat) : Direction :=
  match n with
  | 0 => Direction.Up
  | 1 => Direction.Down
  | 2 => Direction.Left
  | _ => Direction.Right

/-- Model of `decodeMovement`: read the id at offset 0, the direction byte at
offset 4, skip the 3 reserved bytes, then validate the direction. -/
def decodeMovement (payload : List Byte) : Except PacketError MovementPacket :=
  match readU32 payload 0 with
  | .error e => .error e
  | .ok playerId =>
    match readByteAt payload 4 with
    | .error e => .error e
    | .ok directionValue =>
      match skipAt payload 5 3 with
      | .error e => .error e
      | .ok _ =>
        if 3 < directionValue then Except.error PacketError.InvalidPayload
        else Except.ok { player := playerId, direction := decodeDirection directionValue }

/-- The entry-reading loop of `decodeStateSnapshot`: read `n` (id, x, y)
triples starting at `offset`, returning them with the final offset. -/
def readEntries (payload : List Byte) : Nat → Nat → Except PacketError (List PlayerState × Nat)
  | 0, offset => .ok ([], offset)
  | n + 1, offset =>
    match readU32 payload offset with
    | .error e => .error e
    | .ok playerId =>
      match readI32 payload (offset + 4) with
      | .error e => .error e
      | .ok positionX =>
        match readI32 payload (offset + 8) with
        | .error e => .error e
        | .ok positionY =>
          match readEntries payload n (offset + 12) with
          | .error e => .error e
          | .ok (rest, final) =>
            .ok ({ player := playerId,
                   position := { x := positionX, y := positionY } } :: rest, final)

/-- Model of `decodeStateSnapshot`: focus id, count, `count` entries, then reject any
unconsumed trailing bytes with `SizeMismatch`. -/
def decodeStateSnapshot (payload : List Byte) : Except PacketError StateSnapshotPacket :=
  match readU32 payload 0 with
  | .error e => .error e
  | .ok focusId =>
    match readU32 payload 4 with
    | .error e => .error e
    | .ok count =>
      match readEntries payload count 8 with
      | .error e => .error e
      | .ok (entries, final) =>
        if payload.length - final ≠ 0 then Except.error PacketError.SizeMismatch
        else Except.ok { focusPlayer := focusId, players := entries }

/-- The byte-copy loop of `decodeChat`: read `n` raw bytes starting at
`offset`. -/
def readChatBytes (payload : List Byte) : Nat → Nat → Except PacketError (List Byte)
  | 0, _ => .ok []
  | n + 1, offset =>
    match readBytesAt payload offset 1 with
    | .error e => .error e
    | .ok bs =>
      match readChatBytes payload n (offset + 1) with
      | .error e => .error e
      | .ok rest => .ok (bs ++ rest)

/-- Model of `decodeChat`: id at offset 0, then all remaining bytes as the message. -/
def decodeChat (payload : List Byte) : Except PacketError ChatPacket :=
  match readU32 payload 0 with
  | .error e => .error e
  | .ok playerId =>
    match readChatBytes payload (payload.length - 4) 4 with
    | .error e => .error e
    | .ok message => .ok { player := playerId, message := message }

/-- Model of `decodePacket`: check the payload length against the header, then
dispatch on the (already validated) packet type. -/
def decodePacket (header : PacketHeader) (payload : List Byte) :
    Except PacketError PacketVariant :=
  if payload.length ≠ header.payloadSize then Except.error PacketError.SizeMismatch
  else
    match header.type with
    | PacketType.Movement =>
      match decodeMovement payload with
      | .error e => .error e
      | .ok p => .ok (PacketVariant.movement p)
    | PacketType.StateSnapshot =>
      match decodeStateSnapshot payload with
      | .error e => .error e
      | .ok p => .ok (PacketVariant.stateSnapshot p)
    | PacketType.Chat =>
      match decodeChat payload with
      | .error e => .error e
      | .ok p => .ok (PacketVariant.chat p)

/-! ### Server-side session logic (src/server/main.cpp) -/

/-- Model of `gridWidth` = 40. -/
def gridWidth : Int := 40

/-- Model of `gridHeight` = 20. -/
def gridHeight : Int := 20

/-- Model of `clampCoordinate`. -/
def clampCoordinate (value ceiling : Int) : Int :=
  if value < 0 then 0
  else if ceiling ≤ value then ceiling - 1
  else value

/-- Model of `applyMovement`: apply the direction's unit delta, then clamp each axis. -/
def applyMovement (position : Position) (direction : Direction) : Position :=
  let moved :=
    match direction with
    | Direction.Up => Position.mk position.x (position.y - 1)
    | Direction.Down => Position.mk position.x (position.y + 1)
    | Direction.Left => Position.mk (position.x - 1) position.y
    | Direction.Right => Position.mk (position.x + 1) position.y
  Position.mk (clampCoordinate moved.x gridWidth) (clampCoordinate moved.y gridHeight)

/-- The `updated` flag in `GameServer::handleMovement`: whether either
coordinate differs after `applyMovement`. -/
def movementChanged (position : Position) (direction : Direction) : Bool :=
  let next := applyMovement position direction
  decide (position.x ≠ next.x) || decide (position.y ≠ next.y)

/-- Model of `GameServer::spawnPosition`: the player id (a `uint32_t`) minus one is
cast to `int32_t`, then reduced by truncated `%` and `/` against the grid
dimensions (C++ `int` division truncates toward zero). -/
def spawnPosition (playerIdentifier : Nat) : Position :=
  let positionIndex : Int := decodeI32 ((playerIdentifier + (2 ^ 32 - 1)) % 2 ^ 32)
  Position.mk (positionIndex.tmod gridWidth) ((positionIndex.tdiv gridWidth).tmod gridHeight)

/-- Model of `players.find(id)` on the registry, modelled as an association list. -/
def lookupPlayer : List (Nat × Position) → Nat → Option Position
  | [], _ => none
  | entry :: rest, pid =>
    if entry.1 = pid then some entry.2 else lookupPlayer rest pid

/-- In-place mutation of the found registry entry's position. -/
def updatePlayer : List (Nat × Position) → Nat → Position → List (Nat × Position)
  | [], _, _ => []
  | entry :: rest, pid, pos =>
    if entry.1 = pid then (pid, pos) :: rest else entry :: updatePlayer rest pid pos

/-- Model of `GameServer::handleMovement`: reject a spoofed id, otherwise look the
session's entry up, move it, and report whether a broadcast is due. -/
def handleMovement (players : List (Nat × Position)) (sessionPlayerId : Nat)
    (movement : MovementPacket) : List (Nat × Position) × Bool :=
  if movement.player ≠ sessionPlayerId then (players, false)
  else
    match lookupPlayer players sessionPlayerId with
    | none => (players, false)
    | some position =>
      (updatePlayer players sessionPlayerId (applyMovement position movement.direction),
       movementChanged position movement.direction)

/-- Model of `GameServer::gatherSnapshot`. -/
def gatherSnapshot (players : List (Nat × Position)) (focus : Nat) : StateSnapshotPacket :=
  { focusPlayer := focus,
    players := players.map fun entry => { player := entry.1, position := entry.2 } }

/-- The outcome of dispatching one decoded packet in the receive loop: the
registry afterwards, and the encoded messages broadcast to every
currently connected participant. -/
structure DispatchOutcome where
  players : List (Nat × Position)
  sent : List (List Byte)
deriving DecidableEq

/-- The `std::visit` dispatch in `GameServer::handleClient`. Its visitor
carries handlers for `MovementPacket` (forwarding to `handleMovement`,
broadcasting the fresh snapshot when the position changed) and for
`StateSnapshotPacket` (deliberately doing nothing). It has no handler at
all for `ChatPacket`, so a chat packet produces no registry change and no
outgoing message. -/
def dispatchPacket (players : List (Nat × Position)) (sessionPlayerId : Nat) :
    PacketVariant → DispatchOutcome
  | PacketVariant.movement m =>
    let result := handleMovement players sessionPlayerId m
    { players := result.1,
      sent := if result.2 then [encodeStateSnapshot (gatherSnapshot result.1 0)] else [] }
  | PacketVariant.stateSnapshot _ => { players := players, sent := [] }
  | PacketVariant.chat _ => { players := players, sent := [] }

/-- A snapshot entry whose fields are representable by the C++ field types
(`uint32_t` id, `int32_t` coordinates). -/
def ValidEntry (entry : PlayerState) : Prop :=
  entry.player < 2 ^ 32 ∧
    -(2 ^ 31) ≤ entry.position.x ∧ entry.position.x < 2 ^ 31 ∧
    -(2 ^ 31) ≤ entry.position.y ∧ entry.position.y < 2 ^ 31

/-- A typed message all of whose fields are representable by the C++ field
types and whose payload fits the header's `uint32_t` length field. -/
def ValidVariant : PacketVariant → Prop
  | .movement p => p.player < 2 ^ 32
  | .stateSnapshot p =>
      p.focusPlayer < 2 ^ 32 ∧ (∀ e ∈ p.players, ValidEntry e) ∧
        8 + 12 * p.players.length < 2 ^ 32
  | .chat p => p.player < 2 ^ 32 ∧ 4 + p.message.length < 2 ^ 32

/-- A snapshot with 357913942 entries: its payload is 8 + 12 * 357913942 =
4294967312 bytes, which overflows the 32-bit payload-length field. -/
def hugeSnapshot : StateSnapshotPacket :=
  { focusPlayer := 0,
    players := List.replicate 357913942 { player := 0, position := Position.mk 0 0 } }

/-! ### Byte-level lemmas -/

theorem toBytesBE_length (w v : Nat) : (toBytesBE w v).length = w := by
  induction w generalizing v with
  | zero => rfl
  | succ k ih => simp [toBytesBE, ih]

theorem fromBytesBE_append_one (l : List Byte) (b : Byte) :
    fromBytesBE (l ++ [b]) = fromBytesBE l * 256 + b.val := by
  unfold fromBytesBE
  rw [List.foldl_append]
  rfl

theorem fromBytesBE_toBytesBE (w v : Nat) :
    fromBytesBE (toBytesBE w v) = v % 2 ^ (8 * w) := by
  induction w generalizing v with
  | zero => simp [toBytesBE, fromBytesBE, Nat.mod_one]
  | succ k ih =>
    have hpow : 2 ^ (8 * (k + 1)) = 256 * 2 ^ (8 * k) := by
      rw [Nat.mul_add, Nat.pow_add]
      ring
    have hsplit : v % (256 * 2 ^ (8 * k)) = v % 256 + 256 * (v / 256 % 2 ^ (8 * k)) :=
      Nat.mod_mul
    rw [toBytesBE, fromBytesBE_append_one, ih, hpow]
    simp only [byte]
    omega

theorem fromBytesBE_toBytesBE_of_lt (w v : Nat) (h : v < 2 ^ (8 * w)) :
    fromBytesBE (toBytesBE w v) = v := by
  rw [fromBytesBE_toBytesBE, Nat.mod_eq_of_lt h]

theorem fromBytesBE_lt (bs : List Byte) : fromBytesBE bs < 2 ^ (8 * bs.length) := by
  induction bs using List.reverseRecOn with
  | nil => simp [fromBytesBE]
  | append_singleton l b ih =>
    rw [fromBytesBE_append_one]
    have hb := b.isLt
    have hpow : 2 ^ (8 * (l ++ [b]).length) = 2 ^ (8 * l.length) * 256 := by
      simp only [List.length_append, List.length_cons, List.length_nil]
      rw [Nat.mul_add, Nat.pow_add]
    rw [hpow]
    omega

/-! ### Reader lemmas -/

theorem readBytesAt_ok (payload : List Byte) (offset n : Nat)
    (h : offset + n ≤ payload.length) :
    readBytesAt payload offset n = .ok ((payload.drop offset).take n) := by
  unfold readBytesAt
  rw [if_pos h]

theorem readBytesAt_shift (pre l : List Byte) (offset k n : Nat)
    (h : offset = pre.length + k) :
    readBytesAt (pre ++ l) offset n = readBytesAt l k n := by
  subst h
  unfold readBytesAt
  rw [List.drop_append, List.length_append]
  exact if_congr (by omega) rfl rfl

theorem readUInt_shift (pre l : List Byte) (offset k n : Nat)
    (h : offset = pre.length + k) :
    readUInt (pre ++ l) offset n = readUInt l k n := by
  unfold readUInt
  rw [readBytesAt_shift pre l offset k n h]

theorem readU16_shift (pre l : List Byte) (offset k : Nat) (h : offset = pre.length + k) :
    readU16 (pre ++ l) offset = readU16 l k :=
  readUInt_shift pre l offset k 2 h

theorem readU32_shift (pre l : List Byte) (offset k : Nat) (h : offset = pre.length + k) :
    readU32 (pre ++ l) offset = readU32 l k :=
  readUInt_shift pre l offset k 4 h

theorem readByteAt_shift (pre l : List Byte) (offset k : Nat) (h : offset = pre.length + k) :
    readByteAt (pre ++ l) offset = readByteAt l k :=
  readUInt_shift pre l offset k 1 h

theorem readI32_shift (pre l : List Byte) (offset k : Nat) (h : offset = pre.length + k) :
    readI32 (pre ++ l) offset = readI32 l k := by
  unfold readI32
  rw [readBytesAt_shift pre l offset k 4 h]

theorem readUInt_write (w v : Nat) (rest : List Byte) :
    readUInt (toBytesBE w v ++ rest) 0 w = .ok (v % 2 ^ (8 * w)) := by
  unfold readUInt
  rw [readBytesAt_ok _ _ _ (by simp [toBytesBE_length])]
  rw [List.drop_zero, List.take_left' (toBytesBE_length w v)]
  show Except.ok (fromBytesBE (toBytesBE w v)) = _
  rw [fromBytesBE_toBytesBE]

theorem readU16_write (v : Nat) (rest : List Byte) (h : v < 2 ^ 16) :
    readU16 (writeU16 v ++ rest) 0 = .ok v := by
  unfold readU16 writeU16
  rw [readUInt_write]
  norm_num at h ⊢
  omega

theorem readU32_write (v : Nat) (rest : List Byte) (h : v < 2 ^ 32) :
    readU32 (writeU32 v ++ rest) 0 = .ok v := by
  unfold readU32 writeU32
  rw [readUInt_write]
  norm_num at h ⊢
  omega

theorem readI32_write (x : Int) (rest : List Byte)
    (h1 : -(2 ^ 31) ≤ x) (h2 : x < 2 ^ 31) :
    readI32 (writeI32 x ++ rest) 0 = .ok x := by
  unfold readI32 writeI32
  rw [readBytesAt_ok _ _ _ (by simp [toBytesBE_length])]
  rw [List.drop_zero, List.take_left' (toBytesBE_length 4 _)]
  show Except.ok (decodeI32 (fromBytesBE (toBytesBE 4 (x % ((2 ^ 32 : Nat) : Int)).toNat))) = _
  rw [fromBytesBE_toBytesBE]
  have hmodnn : (0 : Int) ≤ x % ((2 ^ 32 : Nat) : Int) :=
    Int.emod_nonneg x (by norm_num)
  have hcast : ((x % ((2 ^ 32 : Nat) : Int)).toNat : Int) = x % ((2 ^ 32 : Nat) : Int) :=
    Int.toNat_of_nonneg hmodnn
  have hmodlt : x % ((2 ^ 32 : Nat) : Int) < ((2 ^ 32 : Nat) : Int) :=
    Int.emod_lt_of_pos x (by norm_num)
  norm_num at hcast hmodlt
  have hmlt : (x % ((2 ^ 32 : Nat) : Int)).toNat % 2 ^ (8 * 4) =
      (x % ((2 ^ 32 : Nat) : Int)).toNat := by
    apply Nat.mod_eq_of_lt
    norm_num
    omega
  rw [hmlt]
  unfold decodeI32
  norm_num at h1 h2 ⊢
  split <;> rename_i hcond <;> norm_num at hcond <;> omega

/-! ### Length lemmas -/

theorem writeU16_length (v : Nat) : (writeU16 v).length = 2 := toBytesBE_length 2 v

theorem writeU32_length (v : Nat) : (writeU32 v).length = 4 := toBytesBE_length 4 v

theorem writeI32_length (x : Int) : (writeI32 x).length = 4 := toBytesBE_length 4 _

theorem encodeHeader_length (header : PacketHeader) : (encodeHeader header).length = 8 := by
  simp [encodeHeader, writeU16_length, writeU32_length]

theorem encodeMovementPayload_length (packet : MovementPacket) :
    (encodeMovementPayload packet).length = 8 := by
  simp [encodeMovementPayload, writeU32_length]

theorem encodePlayerState_length (entry : PlayerState) :
    (encodePlayerState entry).length = 12 := by
  simp [encodePlayerState, writeU32_length, writeI32_length]

theorem flatten_entries_length (entries : List PlayerState) :
    ((entries.map encodePlayerState).flatten).length = 12 * entries.length := by
  induction entries with
  | nil => simp
  | cons e es ih =>
    simp only [List.map_cons, List.flatten_cons, List.length_append, ih,
      encodePlayerState_length, List.length_cons]
    ring

theorem encodeSnapshotPayload_length (packet : StateSnapshotPacket) :
    (encodeSnapshotPayload packet).length = 8 + 12 * packet.players.length := by
  simp only [encodeSnapshotPayload, List.length_append, writeU32_length,
    flatten_entries_length]

theorem encodeChatPayload_length (packet : ChatPacket) :
    (encodeChatPayload packet).length = 4 + packet.message.length := by
  simp [encodeChatPayload, writeU32_length]

theorem packetTypeCode_le (t : PacketType) : t.code ≤ 3 := by
  cases t <;> simp [PacketType.code]

theorem decodePacketTypeCode_code (t : PacketType) :
    decodePacketTypeCode t.code = some t := by
  cases t <;> rfl

/-! ### Header round trip -/

theorem decodeHeader_encodeHeader (t : PacketType) (size : Nat) (hsize : size < 2 ^ 32) :
    decodeHeader (encodeHeader { version := protocolVersion, type := t, payloadSize := size })
      = .ok { version := protocolVersion, type := t, payloadSize := size } := by
  have h1 : readU16 (writeU16 protocolVersion ++ writeU16 t.code ++ writeU32 size) 0 = .ok protocolVersion := by
    rw [List.append_assoc]
    exact readU16_write protocolVersion _ (by norm_num [protocolVersion])
  have h2 : readU16 (writeU16 protocolVersion ++ writeU16 t.code ++ writeU32 size) 2 = .ok t.code := by
    rw [List.append_assoc,
      readU16_shift (writeU16 protocolVersion) _ 2 0 (by simp [writeU16_length])]
    exact readU16_write t.code _ (by have := packetTypeCode_le t; omega)
  have h3 : readU32 (writeU16 protocolVersion ++ writeU16 t.code ++ writeU32 size) 4 = .ok size := by
    rw [readU32_shift (writeU16 protocolVersion ++ writeU16 t.code) _ 4 0
      (by simp [writeU16_length]), ← List.append_nil (writeU32 size)]
    exact readU32_write size [] hsize
  have hlen : (writeU16 protocolVersion ++ writeU16 t.code ++ writeU32 size).length = 8 := by
    simp [writeU16_length, writeU32_length]
  show decodeHeader (writeU16 protocolVersion ++ writeU16 t.code ++ writeU32 size) = _
  unfold decodeHeader
  rw [h1, h2, h3]
  rw [if_neg (by simp only [List.length_append, writeU16_length, writeU32_length,
    packetHeaderSize]; omega)]
  show (if protocolVersion ≠ protocolVersion then _ else _) = _
  rw [if_neg (by simp)]
  rw [decodePacketTypeCode_code]

/-! ### Payload round trips -/

theorem directionCode_le (d : Direction) : d.code ≤ 3 := by
  cases d <;> simp [Direction.code]

theorem decodeDirection_code (d : Direction) : decodeDirection d.code = d := by
  cases d <;> rfl

theorem readUInt_ok (payload : List Byte) (offset n : Nat)
    (h : offset + n ≤ payload.length) :
    readUInt payload offset n = .ok (fromBytesBE ((payload.drop offset).take n)) := by
  unfold readUInt
  rw [readBytesAt_ok _ _ _ h]

theorem decodeMovement_encodeMovementPayload (p : MovementPacket)
    (h : p.player < 2 ^ 32) :
    decodeMovement (encodeMovementPayload p) = .ok p := by
  have h1 : readU32 (encodeMovementPayload p) 0 = .ok p.player := by
    unfold encodeMovementPayload
    rw [List.append_assoc]
    exact readU32_write _ _ h
  have h2 : readByteAt (encodeMovementPayload p) 4 = .ok p.direction.code := by
    unfold encodeMovementPayload
    rw [List.append_assoc,
      readByteAt_shift (writeU32 p.player) _ 4 0 (by simp [writeU32_length])]
    have hb : [byte p.direction.code] = toBytesBE 1 p.direction.code := by
      simp [toBytesBE]
    rw [hb]
    unfold readByteAt
    rw [readUInt_write]
    have := directionCode_le p.direction
    congr 1
    omega
  have h3 : skipAt (encodeMovementPayload p) 5 3 = .ok () := by
    unfold skipAt
    rw [if_pos (by rw [encodeMovementPayload_length])]
  unfold decodeMovement
  rw [h1, h2, h3]
  show (if 3 < p.direction.code then Except.error PacketError.InvalidPayload
    else Except.ok { player := p.player, direction := decodeDirection p.direction.code })
      = Except.ok p
  rw [if_neg (by have := directionCode_le p.direction; omega)]
  rw [decodeDirection_code]

theorem readEntries_encoded (entries : List PlayerState) (pre : List Byte)
    (hval : ∀ e ∈ entries, ValidEntry e) :
    readEntries (pre ++ (entries.map encodePlayerState).flatten) entries.length pre.length
      = .ok (entries, pre.length + 12 * entries.length) := by
  induction entries generalizing pre with
  | nil => simp [readEntries]
  | cons e es ih =>
    obtain ⟨hp, hx1, hx2, hy1, hy2⟩ := hval e (List.mem_cons_self e es)
    have hval2 : ∀ x ∈ es, ValidEntry x := fun x hx => hval x (List.mem_cons_of_mem _ hx)
    simp only [List.map_cons, List.flatten_cons, List.length_cons]
    have hr1 : readU32 (pre ++ (encodePlayerState e ++ (es.map encodePlayerState).flatten))
        pre.length = .ok e.player := by
      rw [readU32_shift pre _ pre.length 0 (by omega)]
      unfold encodePlayerState
      rw [List.append_assoc, List.append_assoc]
      exact readU32_write _ _ hp
    have hr2 : readI32 (pre ++ (encodePlayerState e ++ (es.map encodePlayerState).flatten))
        (pre.length + 4) = .ok e.position.x := by
      rw [readI32_shift pre _ (pre.length + 4) 4 rfl]
      unfold encodePlayerState
      rw [List.append_assoc, List.append_assoc,
        readI32_shift (writeU32 e.player) _ 4 0 (by simp [writeU32_length])]
      exact readI32_write _ _ hx1 hx2
    have hr3 : readI32 (pre ++ (encodePlayerState e ++ (es.map encodePlayerState).flatten))
        (pre.length + 8) = .ok e.position.y := by
      rw [readI32_shift pre _ (pre.length + 8) 8 rfl]
      unfold encodePlayerState
      rw [List.append_assoc,
        readI32_shift (writeU32 e.player ++ writeI32 e.position.x) _ 8 0
          (by simp [writeU32_length, writeI32_length])]
      exact readI32_write _ _ hy1 hy2
    have hr4 : readEntries (pre ++ (encodePlayerState e ++ (es.map encodePlayerState).flatten))
        es.length (pre.length + 12) = .ok (es, pre.length + 12 + 12 * es.length) := by
      rw [← List.append_assoc]
      have hlen : (pre ++ encodePlayerState e).length = pre.length + 12 := by
        simp [encodePlayerState_length]
      have := ih (pre ++ encodePlayerState e) hval2
      rw [hlen] at this
      exact this
    unfold readEntries
    rw [hr1, hr2, hr3, hr4]
    simp only [Except.ok.injEq, Prod.mk.injEq, List.cons.injEq, Nat.mul_succ, true_and]
    first
    | trivial
    | omega

theorem decodeStateSnapshot_encodeSnapshotPayload (p : StateSnapshotPacket)
    (hf : p.focusPlayer < 2 ^ 32) (hval : ∀ e ∈ p.players, ValidEntry e)
    (hlen : 8 + 12 * p.players.length < 2 ^ 32) :
    decodeStateSnapshot (encodeSnapshotPayload p) = .ok p := by
  have h1 : readU32 (encodeSnapshotPayload p) 0 = .ok p.focusPlayer := by
    unfold encodeSnapshotPayload
    rw [List.append_assoc]
    exact readU32_write _ _ hf
  have h2 : readU32 (encodeSnapshotPayload p) 4 = .ok p.players.length := by
    unfold encodeSnapshotPayload
    rw [List.append_assoc,
      readU32_shift (writeU32 p.focusPlayer) _ 4 0 (by simp [writeU32_length])]
    exact readU32_write _ _ (by omega)
  have h3 : readEntries (encodeSnapshotPayload p) p.players.length 8
      = .ok (p.players, 8 + 12 * p.players.length) := by
    unfold encodeSnapshotPayload
    have h8 : (writeU32 p.focusPlayer ++ writeU32 p.players.length).length = 8 := by
      simp [writeU32_length]
    have := readEntries_encoded p.players
      (writeU32 p.focusPlayer ++ writeU32 p.players.length) hval
    rw [h8] at this
    exact this
  unfold decodeStateSnapshot
  rw [h1, h2]
  show (match readEntries (encodeSnapshotPayload p) p.players.length 8 with
    | Except.error e => Except.error e
    | Except.ok (entries, final) =>
      if (encodeSnapshotPayload p).length - final ≠ 0 then Except.error PacketError.SizeMismatch
      else Except.ok { focusPlayer := p.focusPlayer, players := entries }) = Except.ok p
  rw [h3]
  show (if (encodeSnapshotPayload p).length - (8 + 12 * p.players.length) ≠ 0
    then Except.error PacketError.SizeMismatch
    else Except.ok { focusPlayer := p.focusPlayer, players := p.players }) = Except.ok p
  rw [if_neg (by simp [encodeSnapshotPayload_length])]

theorem readChatBytes_ok (payload : List Byte) (n offset : Nat)
    (h : offset + n ≤ payload.length) :
    readChatBytes payload n offset = .ok ((payload.drop offset).take n) := by
  induction n generalizing offset with
  | zero => simp [readChatBytes]
  | succ k ih =>
    unfold readChatBytes
    rw [readBytesAt_ok _ _ _ (by omega), ih (offset + 1) (by omega)]
    show Except.ok _ = Except.ok _
    congr 1
    rw [Nat.add_comm k 1, List.take_add, List.drop_drop]

theorem decodeChat_of_le (payload : List Byte) (h : 4 ≤ payload.length) :
    decodeChat payload = .ok { player := fromBytesBE (payload.take 4),
                               message := payload.drop 4 } := by
  have h1 : readU32 payload 0 = .ok (fromBytesBE (payload.take 4)) := by
    unfold readU32
    rw [readUInt_ok _ _ _ (by omega), List.drop_zero]
  have h2 : readChatBytes payload (payload.length - 4) 4 = .ok (payload.drop 4) := by
    rw [readChatBytes_ok _ _ _ (by omega)]
    congr 1
    have hd : (payload.drop 4).length = payload.length - 4 := by
      simp
    rw [← hd]
    exact List.take_length _
  unfold decodeChat
  rw [h1, h2]

theorem decodeChat_encodeChatPayload (p : ChatPacket) (h : p.player < 2 ^ 32) :
    decodeChat (encodeChatPayload p) = .ok p := by
  rw [decodeChat_of_le _ (by simp [encodeChatPayload_length])]
  unfold encodeChatPayload
  rw [List.take_left' (writeU32_length _), List.drop_left' (writeU32_length _)]
  unfold writeU32
  have hlt : p.player < 2 ^ (8 * 4) := by
    norm_num
    omega
  rw [fromBytesBE_toBytesBE, Nat.mod_eq_of_lt hlt]

theorem encodeWithType_take (t : PacketType) (payload : List Byte) :
    (encodeWithType t payload).take packetHeaderSize =
      encodeHeader { version := protocolVersion, type := t,
                     payloadSize := payload.length % 2 ^ 32 } := by
  unfold encodeWithType
  exact List.take_left' (encodeHeader_length _)

theorem encodeWithType_drop (t : PacketType) (payload : List Byte) :
    (encodeWithType t payload).drop packetHeaderSize = payload := by
  unfold encodeWithType
  exact List.drop_left' (encodeHeader_length _)

/-- C1: for every valid typed message of the three variants, splitting the
encoding into its 8-byte header and remaining payload, `decodeHeader`
succeeds on the header and `decodePacket` on the payload returns the
original message. -/
theorem encode_decode_roundTrip (v : PacketVariant) (hv : ValidVariant v) :
    ∃ header : PacketHeader,
      decodeHeader ((encodeVariant v).take packetHeaderSize) = .ok header ∧
      decodePacket header ((encodeVariant v).drop packetHeaderSize) = .ok v := by
  cases v with
  | movement p =>
    have hp : p.player < 2 ^ 32 := hv
    have hmod : (encodeMovementPayload p).length % 2 ^ 32 = 8 := by
      rw [encodeMovementPayload_length]
      norm_num
    refine ⟨⟨protocolVersion, PacketType.Movement, 8⟩, ?_, ?_⟩
    · show decodeHeader ((encodeMovement p).take packetHeaderSize) = _
      unfold encodeMovement
      rw [encodeWithType_take, hmod]
      exact decodeHeader_encodeHeader PacketType.Movement 8 (by norm_num)
    · show decodePacket _ ((encodeMovement p).drop packetHeaderSize) = _
      unfold encodeMovement
      rw [encodeWithType_drop]
      unfold decodePacket
      rw [if_neg (by simp [encodeMovementPayload_length])]
      show (match decodeMovement (encodeMovementPayload p) with
        | Except.error e => Except.error e
        | Except.ok q => Except.ok (PacketVariant.movement q)) = _
      rw [decodeMovement_encodeMovementPayload p hp]
  | stateSnapshot p =>
    obtain ⟨hf, hval, hlen⟩ := hv
    have hmod : (encodeSnapshotPayload p).length % 2 ^ 32 = 8 + 12 * p.players.length := by
      rw [encodeSnapshotPayload_length]
      omega
    refine ⟨⟨protocolVersion, PacketType.StateSnapshot, 8 + 12 * p.players.length⟩, ?_, ?_⟩
    · show decodeHeader ((encodeStateSnapshot p).take packetHeaderSize) = _
      unfold encodeStateSnapshot
      rw [encodeWithType_take, hmod]
      exact decodeHeader_encodeHeader PacketType.StateSnapshot _ hlen
    · show decodePacket _ ((encodeStateSnapshot p).drop packetHeaderSize) = _
      unfold encodeStateSnapshot
      rw [encodeWithType_drop]
      unfold decodePacket
      rw [if_neg (by simp [encodeSnapshotPayload_length])]
      show (match decodeStateSnapshot (encodeSnapshotPayload p) with
        | Except.error e => Except.error e
        | Except.ok q => Except.ok (PacketVariant.stateSnapshot q)) = _
      rw [decodeStateSnapshot_encodeSnapshotPayload p hf hval hlen]
  | chat p =>
    obtain ⟨hp, hlen⟩ := hv
    have hmod : (encodeChatPayload p).length % 2 ^ 32 = 4 + p.message.length := by
      rw [encodeChatPayload_length]
      omega
    refine ⟨⟨protocolVersion, PacketType.Chat, 4 + p.message.length⟩, ?_, ?_⟩
    · show decodeHeader ((encodeChat p).take packetHeaderSize) = _
      unfold encodeChat
      rw [encodeWithType_take, hmod]
      exact decodeHeader_encodeHeader PacketType.Chat _ hlen
    · show decodePacket _ ((encodeChat p).drop packetHeaderSize) = _
      unfold encodeChat
      rw [encodeWithType_drop]
      unfold decodePacket
      rw [if_neg (by simp [encodeChatPayload_length])]
      show (match decodeChat (encodeChatPayload p) with
        | Except.error e => Except.error e
        | Except.ok q => Except.ok (PacketVariant.chat q)) = _
      rw [decodeChat_encodeChatPayload p hp]

/-- Witness for C1 at a concrete chat message. -/
theorem encode_decode_roundTrip_witness :
    ∃ header : PacketHeader,
      decodeHeader ((encodeVariant
          (PacketVariant.chat { player := 7, message := [byte 104, byte 105] })).take
        packetHeaderSize) = .ok header ∧
      decodePacket header ((encodeVariant
          (PacketVariant.chat { player := 7, message := [byte 104, byte 105] })).drop
        packetHeaderSize) =
        .ok (PacketVariant.chat { player := 7, message := [byte 104, byte 105] }) :=
  encode_decode_roundTrip
    (PacketVariant.chat { player := 7, message := [byte 104, byte 105] })
    (by unfold ValidVariant; norm_num)

/-- C1 counterexample: a StateSnapshot with 357913942 (id, position)
entries encodes to a 4294967312-byte payload, so the header's `uint32_t`
length field wraps to 16 and `decodePacket` on the actual payload fails
with SizeMismatch instead of returning the original message. -/
theorem roundTrip_overflow_counterexample :
    decodeHeader ((encodeVariant (PacketVariant.stateSnapshot hugeSnapshot)).take
        packetHeaderSize) =
      .ok { version := 1, type := PacketType.StateSnapshot, payloadSize := 16 } ∧
    decodePacket { version := 1, type := PacketType.StateSnapshot, payloadSize := 16 }
        ((encodeVariant (PacketVariant.stateSnapshot hugeSnapshot)).drop packetHeaderSize) =
      .error PacketError.SizeMismatch := by
  have h2 : hugeSnapshot.players.length = 357913942 := by
    unfold hugeSnapshot
    rw [List.length_replicate]
  have hplen : (encodeSnapshotPayload hugeSnapshot).length = 4294967312 := by
    have h := encodeSnapshotPayload_length hugeSnapshot
    rw [h2] at h
    rw [h]
  constructor
  · show decodeHeader ((encodeStateSnapshot hugeSnapshot).take packetHeaderSize) = _
    unfold encodeStateSnapshot
    rw [encodeWithType_take, hplen]
    rw [show (4294967312 % 2 ^ 32 : Nat) = 16 from by norm_num]
    exact decodeHeader_encodeHeader PacketType.StateSnapshot 16 (by norm_num)
  · show decodePacket _ ((encodeStateSnapshot hugeSnapshot).drop packetHeaderSize) = _
    have hdrop : (encodeStateSnapshot hugeSnapshot).drop packetHeaderSize =
        encodeSnapshotPayload hugeSnapshot := encodeWithType_drop _ _
    have hne : (encodeSnapshotPayload hugeSnapshot).length ≠ 16 := by
      rw [hplen]
      norm_num
    have hstep : decodePacket { version := 1, type := PacketType.StateSnapshot, payloadSize := 16 }
        (encodeSnapshotPayload hugeSnapshot) = Except.error PacketError.SizeMismatch := by
      unfold decodePacket
      exact if_pos hne
    have hcongr := congrArg
      (decodePacket { version := 1, type := PacketType.StateSnapshot, payloadSize := 16 }) hdrop
    exact hcongr.trans hstep

/-! ### Movement / registry claims -/

/-- C3: applying any direction to an in-range position lands in range, the
`updated` flag is false exactly when the clamped result equals the starting
position, and (0, 0) moved Left stays (0, 0) with no change reported. -/
theorem applyMovement_clamped_spec :
    (∀ (p : Position) (d : Direction), 0 ≤ p.x → p.x < 40 → 0 ≤ p.y → p.y < 20 →
        (0 ≤ (applyMovement p d).x ∧ (applyMovement p d).x < 40 ∧
         0 ≤ (applyMovement p d).y ∧ (applyMovement p d).y < 20) ∧
        (movementChanged p d = false ↔ applyMovement p d = p)) ∧
    applyMovement (Position.mk 0 0) Direction.Left = Position.mk 0 0 ∧
    movementChanged (Position.mk 0 0) Direction.Left = false := by
  refine ⟨?_, by decide, by decide⟩
  intro p d hx0 hx1 hy0 hy1
  obtain ⟨x, y⟩ := p
  cases d <;>
    simp only [applyMovement, movementChanged, clampCoordinate, gridWidth, gridHeight,
      Position.mk.injEq, Bool.or_eq_false_iff, decide_eq_false_iff_not, not_not] <;>
    split_ifs <;>
    constructor <;>
    simp_all <;>
    omega

/-- Witness for C3 at position (5, 5) moved Right. -/
theorem applyMovement_clamped_spec_witness :
    (0 ≤ (applyMovement (Position.mk 5 5) Direction.Right).x ∧
     (applyMovement (Position.mk 5 5) Direction.Right).x < 40 ∧
     0 ≤ (applyMovement (Position.mk 5 5) Direction.Right).y ∧
     (applyMovement (Position.mk 5 5) Direction.Right).y < 20) ∧
    (movementChanged (Position.mk 5 5) Direction.Right = false ↔
      applyMovement (Position.mk 5 5) Direction.Right = Position.mk 5 5) :=
  applyMovement_clamped_spec.1 (Position.mk 5 5) Direction.Right
    (by norm_num) (by norm_num) (by norm_num) (by norm_num)

/-- C8: a Movement message whose participant id differs from the id bound to
the receiving session leaves the registry exactly as before and sends
nothing. -/
theorem spoofed_movement_ignored (players : List (Nat × Position)) (sid : Nat)
    (m : MovementPacket) (h : m.player ≠ sid) :
    dispatchPacket players sid (PacketVariant.movement m) =
      { players := players, sent := [] } := by
  unfold dispatchPacket handleMovement
  simp [h]

/-- Witness for C8: session 7 receives a Movement claiming id 9. -/
theorem spoofed_movement_ignored_witness :
    dispatchPacket [(7, Position.mk 0 0)] 7
        (PacketVariant.movement { player := 9, direction := Direction.Up }) =
      { players := [(7, Position.mk 0 0)], sent := [] } :=
  spoofed_movement_ignored [(7, Position.mk 0 0)] 7
    { player := 9, direction := Direction.Up } (by norm_num)

/-- C2 (observed behaviour): dispatching a Chat packet received from
connected participant 7 with text "hi" sends nothing to anyone — the
receive-loop visitor has no chat handler, so the message is not
rebroadcast. -/
theorem chat_not_rebroadcast :
    dispatchPacket [(7, Position.mk 0 0), (3, Position.mk 1 0)] 7
        (PacketVariant.chat { player := 7, message := [byte 104, byte 105] }) =
      { players := [(7, Position.mk 0 0), (3, Position.mk 1 0)], sent := [] } := rfl

/-! ### Spawn position (C7) -/

theorem tmod_natCast (a b : Nat) :
    Int.tmod ((a : Nat) : Int) ((b : Nat) : Int) = ((a % b : Nat) : Int) := rfl

theorem tdiv_natCast (a b : Nat) :
    Int.tdiv ((a : Nat) : Int) ((b : Nat) : Int) = ((a / b : Nat) : Int) := rfl

/-- C7 (amended): for ids up to 2^31 the spawn position is the row-major
cell ((n-1) mod 40, ((n-1) div 40) mod 20); ids 1 and 2 spawn at (0,0) and
(1,0), and the first 800 ids get pairwise distinct spawn positions. -/
theorem spawnPosition_rowMajor :
    (∀ n : Nat, 1 ≤ n → n ≤ 2 ^ 31 →
        spawnPosition n =
          Position.mk (((n - 1) % 40 : Nat) : Int) ((((n - 1) / 40) % 20 : Nat) : Int)) ∧
    spawnPosition 1 = Position.mk 0 0 ∧
    spawnPosition 2 = Position.mk 1 0 ∧
    (∀ n m : Nat, 1 ≤ n → n < m → m ≤ 800 → spawnPosition n ≠ spawnPosition m) := by
  have formula : ∀ n : Nat, 1 ≤ n → n ≤ 2 ^ 31 →
      spawnPosition n =
        Position.mk (((n - 1) % 40 : Nat) : Int) ((((n - 1) / 40) % 20 : Nat) : Int) := by
    intro n h1 h2
    simp only [spawnPosition]
    have hmod : (n + (2 ^ 32 - 1)) % 2 ^ 32 = n - 1 := by omega
    rw [hmod]
    unfold decodeI32
    rw [if_pos (by omega)]
    unfold gridWidth gridHeight
    rw [show ((40 : Int)) = (((40 : Nat) : Nat) : Int) from rfl,
      show ((20 : Int)) = (((20 : Nat) : Nat) : Int) from rfl,
      tmod_natCast, tdiv_natCast, tmod_natCast]
  have distinct : ∀ n m : Nat, 1 ≤ n → n < m → m ≤ 800 →
      spawnPosition n ≠ spawnPosition m := by
    intro n m h1 h2 h3 heq
    rw [formula n h1 (by norm_num; omega), formula m (by omega) (by norm_num; omega)] at heq
    simp only [Position.mk.injEq, Nat.cast_inj] at heq
    omega
  exact ⟨formula, by decide, by decide, distinct⟩

/-- Witness for C7: id 42 spawns at row-major cell (1, 1). -/
theorem spawnPosition_rowMajor_witness :
    spawnPosition 42 =
      Position.mk (((42 - 1) % 40 : Nat) : Int) ((((42 - 1) / 40) % 20 : Nat) : Int) :=
  spawnPosition_rowMajor.1 42 (by norm_num) (by norm_num)

/-- C7 counterexample: for id 2^31 + 1 the cast of id - 1 to int32 wraps to
a negative index and the truncated mod/div give (-8, -11), not the
row-major cell (8, 11) the claim predicts. -/
theorem spawnPosition_wrap_counterexample :
    spawnPosition (2 ^ 31 + 1) = Position.mk (-8) (-11) ∧
    (2 ^ 31 + 1 - 1) % 40 = 8 ∧ ((2 ^ 31 + 1 - 1) / 40) % 20 = 11 := by
  refine ⟨by decide, by decide, by decide⟩

/-! ### Movement payload decoding (C4, C9) -/

theorem decodeMovement_eval (b0 b1 b2 b3 b4 e5 e6 e7 : Byte) :
    decodeMovement [b0, b1, b2, b3, b4, e5, e6, e7] =
      if 3 < b4.val then Except.error PacketError.InvalidPayload
      else Except.ok { player := fromBytesBE [b0, b1, b2, b3],
                       direction := decodeDirection b4.val } := by
  have h1 : readU32 [b0, b1, b2, b3, b4, e5, e6, e7] 0 =
      .ok (fromBytesBE [b0, b1, b2, b3]) := by
    show readUInt _ 0 4 = _
    rw [readUInt_ok _ _ _ (by simp)]
    rfl
  have h2 : readByteAt [b0, b1, b2, b3, b4, e5, e6, e7] 4 = .ok b4.val := by
    show readUInt _ 4 1 = _
    rw [readUInt_ok _ _ _ (by simp)]
    show Except.ok (fromBytesBE [b4]) = _
    simp [fromBytesBE]
  have h3 : skipAt [b0, b1, b2, b3, b4, e5, e6, e7] 5 3 = .ok () := rfl
  unfold decodeMovement
  rw [h1, h2, h3]

/-- C4: an 8-byte Movement payload is rejected as InvalidPayload exactly
when its direction byte is at least 4; otherwise decoding succeeds with the
big-endian id of the first four bytes and the direction of byte 4, and the
three reserved padding bytes never influence the result. -/
theorem decodeMovement_eight_byte_spec (b0 b1 b2 b3 b4 c5 c6 c7 d5 d6 d7 : Byte) :
    (4 ≤ b4.val → decodeMovement [b0, b1, b2, b3, b4, c5, c6, c7] =
        Except.error PacketError.InvalidPayload) ∧
    (b4.val < 4 → decodeMovement [b0, b1, b2, b3, b4, c5, c6, c7] =
        Except.ok { player := fromBytesBE [b0, b1, b2, b3],
                    direction := decodeDirection b4.val }) ∧
    decodeMovement [b0, b1, b2, b3, b4, c5, c6, c7] =
      decodeMovement [b0, b1, b2, b3, b4, d5, d6, d7] := by
  refine ⟨?_, ?_, ?_⟩
  · intro h
    rw [decodeMovement_eval, if_pos (by omega)]
  · intro h
    rw [decodeMovement_eval, if_neg (by omega)]
  · rw [decodeMovement_eval, decodeMovement_eval]

/-- Witness for C4: direction byte 9 rejects the payload. -/
theorem decodeMovement_eight_byte_spec_witness :
    decodeMovement [byte 0, byte 0, byte 0, byte 7, byte 9, byte 0, byte 0, byte 0] =
      Except.error PacketError.InvalidPayload :=
  (decodeMovement_eight_byte_spec (byte 0) (byte 0) (byte 0) (byte 7) (byte 9)
    (byte 0) (byte 0) (byte 0) (byte 1) (byte 2) (byte 3)).1 (by decide)

/-- C9: on a payload longer than 8 bytes with an in-range direction byte,
decodeMovement still succeeds and depends only on the first five bytes, and
no input at all makes it return SizeMismatch. -/
theorem decodeMovement_trailing_spec :
    (∀ payload : List Byte, 8 < payload.length →
        (payload.getD 4 (byte 0)).val < 4 →
        decodeMovement payload =
          Except.ok { player := fromBytesBE (payload.take 4),
                      direction := decodeDirection (payload.getD 4 (byte 0)).val }) ∧
    (∀ payload : List Byte, decodeMovement payload ≠ Except.error PacketError.SizeMismatch) := by
  constructor
  · intro payload hlen hdir
    have h4 : (4 : Nat) < payload.length := by omega
    have h1 : readU32 payload 0 = .ok (fromBytesBE (payload.take 4)) := by
      show readUInt _ 0 4 = _
      rw [readUInt_ok _ _ _ (by omega), List.drop_zero]
    have h2 : readByteAt payload 4 = .ok (payload.getD 4 (byte 0)).val := by
      show readUInt _ 4 1 = _
      rw [readUInt_ok _ _ _ (by omega)]
      rw [List.drop_eq_getElem_cons h4]
      rw [List.getD_eq_getElem payload (byte 0) h4]
      show Except.ok (fromBytesBE [payload[4]]) = _
      simp [fromBytesBE]
    have h3 : skipAt payload 5 3 = .ok () := by
      unfold skipAt
      rw [if_pos (by omega)]
    unfold decodeMovement
    rw [h1, h2, h3]
    show (if 3 < (payload.getD 4 (byte 0)).val then Except.error PacketError.InvalidPayload
      else (Except.ok ⟨fromBytesBE (payload.take 4),
        decodeDirection ((payload.getD 4 (byte 0)).val)⟩ :
          Except PacketError MovementPacket)) = _
    rw [if_neg (by omega)]
  · intro payload
    unfold decodeMovement readU32 readByteAt readUInt readBytesAt skipAt
    split_ifs <;> simp
    split_ifs <;> simp

/-- Witness for C9 on a 10-byte payload. -/
theorem decodeMovement_trailing_spec_witness :
    decodeMovement [byte 0, byte 0, byte 0, byte 7, byte 2, byte 0, byte 0, byte 0,
        byte 5, byte 5] =
      Except.ok { player := fromBytesBE [byte 0, byte 0, byte 0, byte 7],
                  direction := decodeDirection ((([byte 0, byte 0, byte 0, byte 7, byte 2,
                    byte 0, byte 0, byte 0, byte 5, byte 5] : List Byte).getD 4 (byte 0)).val) } := by
  have h := decodeMovement_trailing_spec.1
    [byte 0, byte 0, byte 0, byte 7, byte 2, byte 0, byte 0, byte 0, byte 5, byte 5]
    (by decide) (by decide)
  exact h

/-! ### Snapshot trailing-byte treatment (C5) -/

theorem readUInt_ok_bound (payload : List Byte) (offset n v : Nat)
    (h : readUInt payload offset n = .ok v) : offset + n ≤ payload.length := by
  by_cases hc : offset + n ≤ payload.length
  · exact hc
  · exfalso
    unfold readUInt readBytesAt at h
    rw [if_neg hc] at h
    exact absurd h (by simp)

theorem readI32_ok_bound (payload : List Byte) (offset : Nat) (v : Int)
    (h : readI32 payload offset = .ok v) : offset + 4 ≤ payload.length := by
  by_cases hc : offset + 4 ≤ payload.length
  · exact hc
  · exfalso
    unfold readI32 readBytesAt at h
    rw [if_neg hc] at h
    exact absurd h (by simp)

theorem readEntries_bound (payload : List Byte) (n : Nat) :
    ∀ (offset : Nat) (entries : List PlayerState) (final : Nat),
      offset ≤ payload.length →
      readEntries payload n offset = .ok (entries, final) →
      offset ≤ final ∧ final ≤ payload.length := by
  induction n with
  | zero =>
    intro offset entries final hoff h
    unfold readEntries at h
    simp only [Except.ok.injEq, Prod.mk.injEq] at h
    omega
  | succ k ih =>
    intro offset entries final hoff h
    unfold readEntries at h
    cases hr1 : readU32 payload offset with
    | error e => rw [hr1] at h; exact absurd h (by simp)
    | ok pid =>
      rw [hr1] at h
      cases hr2 : readI32 payload (offset + 4) with
      | error e => rw [hr2] at h; exact absurd h (by simp)
      | ok px =>
        rw [hr2] at h
        cases hr3 : readI32 payload (offset + 8) with
        | error e => rw [hr3] at h; exact absurd h (by simp)
        | ok py =>
          rw [hr3] at h
          cases hr4 : readEntries payload k (offset + 12) with
          | error e => rw [hr4] at h; exact absurd h (by simp)
          | ok pr =>
            obtain ⟨es, fin⟩ := pr
            rw [hr4] at h
            simp only [Except.ok.injEq, Prod.mk.injEq] at h
            have hlen : offset + 12 ≤ payload.length := by
              have := readI32_ok_bound payload (offset + 8) py hr3
              omega
            have := ih (offset + 12) es fin hlen hr4
            omega

/-- C5: on a StateSnapshot payload from which a focus id, a count, and
exactly count entries can be read, decoding fails with SizeMismatch exactly
when payload bytes remain unconsumed, and succeeds when none remain. -/
theorem decodeStateSnapshot_sizeMismatch_spec (payload : List Byte)
    (focus count : Nat) (entries : List PlayerState) (final : Nat)
    (h1 : readU32 payload 0 = .ok focus) (h2 : readU32 payload 4 = .ok count)
    (h3 : readEntries payload count 8 = .ok (entries, final)) :
    (decodeStateSnapshot payload = .error PacketError.SizeMismatch ↔
      final < payload.length) ∧
    (final = payload.length →
      decodeStateSnapshot payload = .ok { focusPlayer := focus, players := entries }) := by
  have h8 : (8 : Nat) ≤ payload.length := readUInt_ok_bound payload 4 4 count h2
  have hb := readEntries_bound payload count 8 entries final h8 h3
  have heq : decodeStateSnapshot payload =
      (if payload.length - final ≠ 0 then Except.error PacketError.SizeMismatch
       else Except.ok { focusPlayer := focus, players := entries }) := by
    unfold decodeStateSnapshot
    rw [h1, h2]
    show ((match readEntries payload count 8 with
      | Except.error e => Except.error e
      | Except.ok (es, fin) =>
        if payload.length - fin ≠ 0 then Except.error PacketError.SizeMismatch
        else Except.ok { focusPlayer := focus, players := es }) :
        Except PacketError StateSnapshotPacket) = _
    rw [h3]
  constructor
  · rw [heq]
    constructor
    · intro he
      by_contra hlt
      rw [if_neg (by omega)] at he
      exact absurd he (by simp)
    · intro hlt
      rw [if_pos (by omega)]
  · intro hfin
    rw [heq, if_neg (by omega)]

/-- Witness for C5: a count-0 snapshot payload with one trailing byte. -/
theorem decodeStateSnapshot_sizeMismatch_spec_witness :
    decodeStateSnapshot (writeU32 1 ++ writeU32 0 ++ [byte 0]) =
      .error PacketError.SizeMismatch :=
  ((decodeStateSnapshot_sizeMismatch_spec (writeU32 1 ++ writeU32 0 ++ [byte 0])
      1 0 [] 8 rfl rfl rfl).1).mpr (by decide)

/-! ### Header error taxonomy (C6) -/

/-- C6 (amended): on a buffer of at least 8 bytes a wrong version yields
VersionMismatch regardless of the type tag; with version 1 and a type tag
whose low byte (tag mod 256) is outside {1,2,3} it yields UnknownType; and
every shorter buffer yields Truncated. -/
theorem decodeHeader_error_spec :
    (∀ buffer : List Byte, packetHeaderSize ≤ buffer.length →
        fromBytesBE (buffer.take 2) ≠ protocolVersion →
        decodeHeader buffer = .error PacketError.VersionMismatch) ∧
    (∀ buffer : List Byte, packetHeaderSize ≤ buffer.length →
        fromBytesBE (buffer.take 2) = protocolVersion →
        fromBytesBE ((buffer.drop 2).take 2) % 256 ≠ 1 →
        fromBytesBE ((buffer.drop 2).take 2) % 256 ≠ 2 →
        fromBytesBE ((buffer.drop 2).take 2) % 256 ≠ 3 →
        decodeHeader buffer = .error PacketError.UnknownType) ∧
    (∀ buffer : List Byte, buffer.length < packetHeaderSize →
        decodeHeader buffer = .error PacketError.Truncated) := by
  have hreads : ∀ buffer : List Byte, packetHeaderSize ≤ buffer.length →
      readU16 buffer 0 = .ok (fromBytesBE (buffer.take 2)) ∧
      readU16 buffer 2 = .ok (fromBytesBE ((buffer.drop 2).take 2)) ∧
      readU32 buffer 4 = .ok (fromBytesBE ((buffer.drop 4).take 4)) := by
    intro buffer hlen
    unfold packetHeaderSize at hlen
    refine ⟨?_, ?_, ?_⟩
    · show readUInt _ 0 2 = _
      rw [readUInt_ok _ _ _ (by omega), List.drop_zero]
    · show readUInt _ 2 2 = _
      rw [readUInt_ok _ _ _ (by omega)]
    · show readUInt _ 4 4 = _
      rw [readUInt_ok _ _ _ (by omega)]
  refine ⟨?_, ?_, ?_⟩
  · intro buffer hlen hv
    obtain ⟨h1, h2, h3⟩ := hreads buffer hlen
    unfold decodeHeader
    rw [if_neg (by omega), h1, h2, h3]
    show (if fromBytesBE (buffer.take 2) ≠ protocolVersion
      then Except.error PacketError.VersionMismatch
      else _) = _
    rw [if_pos hv]
  · intro buffer hlen hv ht1 ht2 ht3
    obtain ⟨h1, h2, h3⟩ := hreads buffer hlen
    unfold decodeHeader
    rw [if_neg (by omega), h1, h2, h3]
    show (if fromBytesBE (buffer.take 2) ≠ protocolVersion
      then Except.error PacketError.VersionMismatch
      else _) = _
    rw [if_neg (by simp [hv])]
    unfold decodePacketTypeCode
    rw [if_neg ht1, if_neg ht2, if_neg ht3]
  · intro buffer hlen
    unfold decodeHeader
    rw [if_pos hlen]

/-- Witness for C6: version 2 with a garbage type tag is VersionMismatch. -/
theorem decodeHeader_error_spec_witness :
    decodeHeader [byte 0, byte 2, byte 0, byte 9, byte 0, byte 0, byte 0, byte 0] =
      .error PacketError.VersionMismatch :=
  decodeHeader_error_spec.1
    [byte 0, byte 2, byte 0, byte 9, byte 0, byte 0, byte 0, byte 0]
    (by decide) (by decide)

/-- C6 counterexample: with version 1 and type tag 257 — outside {1,2,3} —
the header decodes successfully as Movement rather than failing with
UnknownType, because the cast to the uint8-backed enum reduces the tag
modulo 256. -/
theorem decodeHeader_tag257_counterexample :
    fromBytesBE [byte 1, byte 1] = 257 ∧
    decodeHeader [byte 0, byte 1, byte 1, byte 1, byte 0, byte 0, byte 0, byte 0] =
      .ok { version := 1, type := PacketType.Movement, payloadSize := 0 } := by
  exact ⟨by decide, rfl⟩

/-! ### Chat payload decoding (C10) -/

/-- C10: decodeChat is Truncated below 4 bytes, succeeds with an empty
message at exactly 4 bytes, and otherwise returns all bytes after the
4-byte big-endian id, unvalidated. -/
theorem decodeChat_spec :
    (∀ payload : List Byte, payload.length < 4 →
        decodeChat payload = .error PacketError.Truncated) ∧
    (∀ payload : List Byte, payload.length = 4 →
        decodeChat payload = .ok { player := fromBytesBE payload, message := [] }) ∧
    (∀ payload : List Byte, 4 ≤ payload.length →
        decodeChat payload = .ok { player := fromBytesBE (payload.take 4),
                                   message := payload.drop 4 }) := by
  refine ⟨?_, ?_, fun payload h => decodeChat_of_le payload h⟩
  · intro payload hlen
    unfold decodeChat readU32 readUInt readBytesAt
    rw [if_neg (by omega)]
  · intro payload hlen
    rw [decodeChat_of_le payload (by omega)]
    rw [show payload.take 4 = payload from by rw [← hlen]; exact List.take_length payload,
      show payload.drop 4 = ([] : List Byte) from by rw [← hlen]; exact List.drop_length payload]

/-- Witness for C10: a 2-byte payload is Truncated. -/
theorem decodeChat_spec_witness :
    decodeChat [byte 0, byte 0] = .error PacketError.Truncated :=
  decodeChat_spec.1 [byte 0, byte 0] (by decide)

end Moonlapse
